import Mathlib

/-!
Verification of the group rolling-update engine of infrakit
(package `group`: `isSelf`, `doNotDestroySelf`, `desiredAndUndesiredInstances`,
`rollingupdate.waitUntilQuiesced`, `rollingupdate.Run`, `rollingupdate.Stop`).

The Go source is embedded shallowly: pure functions become Lean functions;
the polling loop of `waitUntilQuiesced` and the driver loop of `Run` become
recursions over an explicit environment trace (the sequence of scheduler
selections, snapshot results and health observations that the external
collaborators deliver).  Machine integers only ever hold small non-negative
counts here (lengths of lists, an allocation size), so they are embedded as
`Nat`.
-/

namespace Infrakit

/-- `instance.Description`: identifier, optional logical identifier, tag map.
The Go tag map (string→string, keys unique) is embedded as an association
list looked up with `List.lookup`.  The `Properties` field of the Go struct
is never read by this subsystem and is omitted. -/
structure Description where
  ID : String
  LogicalID : Option String
  Tags : List (String × String)
deriving DecidableEq

/-- Modelled from the spec: the well-known config-hash tag key
(`group.ConfigSHATag`, a documented well-known key; its concrete value is
opaque to this subsystem). -/
def ConfigSHATag : String := "infrakit.config_sha"

/-- Modelled from the spec: the well-known logical-ID tag key
(`instance.LogicalIDTag`). -/
def LogicalIDTag : String := "infrakit.logical-id"

/-- `group_types.PolicyLeaderSelfUpdate`: the leader-self-update policy,
`Never` or `Last`. -/
inductive SelfUpdatePolicy where
  | Never
  | Last
deriving DecidableEq

/-- The part of `group_types.Options` read by this subsystem: the optional
leader-self-update policy (a nil-able pointer in Go, hence `Option`). -/
structure Options where
  PolicyLeaderSelfUpdate : Option SelfUpdatePolicy
deriving DecidableEq

/-- Modelled from the spec: the part of the group configuration
(`group_types.Spec`) read by this subsystem — `InstanceHash()` is the
content hash of the desired instance spec (`ConfigSHA`), represented here
by its value, and `Allocation.Size` is the allocation size. -/
structure Spec where
  InstanceHash : String
  AllocationSize : Nat
deriving DecidableEq

/-- Modelled from the spec: `groupSettings` — the configuration in force for
one side of a transition: config (content hash + allocation size), optional
self logical ID, and options holding the leader-self-update policy.  Only
the fields read by the rolling-update engine are embedded. -/
structure groupSettings where
  self : Option String
  options : Options
  config : Spec
deriving DecidableEq

/-- `flavor.Health`: enum {Healthy, Unhealthy, Unknown}. -/
inductive Health where
  | Healthy
  | Unhealthy
  | Unknown
deriving DecidableEq

/-- `isSelf`: matches by exact logical-ID equality first; otherwise, if the
logical-ID tag is present, the result is the comparison of the tag value
with the self ID; false when no self ID is configured. -/
def isSelf (inst : Description) (settings : groupSettings) : Bool :=
  match settings.self with
  | some s =>
    if inst.LogicalID = some s then true
    else
      match inst.Tags.lookup LogicalIDTag with
      | some v => s = v
      | none => false
  | none => false

/-- `doNotDestroySelf`: the instance is self and the (nil-able) policy is
`Never`. -/
def doNotDestroySelf (inst : Description) (settings : groupSettings) : Bool :=
  if !(isSelf inst settings) then false
  else
    match settings.options.PolicyLeaderSelfUpdate with
    | some p => p = SelfUpdatePolicy.Never
    | none => false

/-- The per-instance condition of the loop body of
`desiredAndUndesiredInstances`: the config-hash tag is present and equal to
the target hash (Go: `specified && actualConfig == desiredHash`), or the
self-protection override applies. -/
def desiredCondition (settings : groupSettings) (inst : Description) : Bool :=
  (match inst.Tags.lookup ConfigSHATag with
   | some actualConfig => actualConfig = settings.config.InstanceHash
   | none => false) || doNotDestroySelf inst settings

/-- `desiredAndUndesiredInstances`: the Go loop appends each instance, in
input order, to the desired list when `desiredCondition` holds and to the
undesired list otherwise — i.e. it partitions the input. -/
def desiredAndUndesiredInstances (instances : List Description)
    (settings : groupSettings) : List Description × List Description :=
  instances.partition (desiredCondition settings)

/-- One scheduler selection observed by the polling loop of
`waitUntilQuiesced`: either the ticker fires — and the poll body runs with
the snapshot that `labelAndList` then returns and the health observations
that `scaled.Health` then makes — or the (closed) stop channel is selected.
`labelAndList` and `scaled` are external collaborators not part of this
subsystem's source; modelled from the spec, a snapshot fetch yields either
a list of instance descriptions or an error. -/
inductive PollEvent where
  | tick (snapshot : Except String (List Description)) (health : Description → Health)
  | stop

/-- The error message returned when the stop channel is selected. -/
def haltedByUser : String := "Update halted by user"

/-- The error message for an Unhealthy instance observed by the health
loop. -/
def unhealthyErr (inst : Description) : String :=
  "Instance " ++ inst.ID ++ " is unhealthy"

/-- The per-instance health loop of `waitUntilQuiesced`: scans the matching
instances in order accumulating `numHealthy`; Healthy increments, Unhealthy
returns the error immediately, Unknown is skipped. -/
def countHealthyFrom (health : Description → Health) :
    List Description → Nat → Except String Nat
  | [], numHealthy => Except.ok numHealthy
  | inst :: rest, numHealthy =>
    match health inst with
    | Health.Healthy => countHealthyFrom health rest (numHealthy + 1)
    | Health.Unhealthy => Except.error (unhealthyErr inst)
    | Health.Unknown => countHealthyFrom health rest numHealthy

/-- One iteration of the `select` loop of `waitUntilQuiesced`:
`some (some msg)` — the loop returns the error `msg`; `some none` — the
loop returns success; `none` — the loop keeps polling. -/
def pollOnce (updatingTo : groupSettings) (expectedNewInstances : Nat) :
    PollEvent → Option (Option String)
  | PollEvent.stop => some (some haltedByUser)
  | PollEvent.tick snapshot health =>
    match snapshot with
    | Except.error e => some (some e)
    | Except.ok instances =>
      match countHealthyFrom health
          (desiredAndUndesiredInstances instances updatingTo).1 0 with
      | Except.error msg => some (some msg)
      | Except.ok numHealthy =>
        if expectedNewInstances ≤ numHealthy then some none else none

/-- `waitUntilQuiesced` over a finite prefix of the scheduler-selection
trace: runs `pollOnce` on each event until one returns; `none` means the
trace was exhausted with the wait still blocked. -/
def waitUntilQuiesced (updatingTo : groupSettings) (expectedNewInstances : Nat) :
    List PollEvent → Option (Option String)
  | [] => none
  | ev :: rest =>
    match pollOnce updatingTo expectedNewInstances ev with
    | some r => some r
    | none => waitUntilQuiesced updatingTo expectedNewInstances rest

/-- `minInt`. -/
def minInt (a b : Nat) : Nat := if a < b then a else b

/-- Modelled from the spec: the strict comparison underlying `sortByID` —
order by instance identity (the ID string), with self-aware tie-breaking
consistent with the supplied ("from") settings: an instance recognised as
self orders after every non-self instance. -/
def sortByIDLess (settings : groupSettings) (a b : Description) : Bool :=
  if isSelf a settings then false
  else if isSelf b settings then true
  else decide (a.ID < b.ID)

/-- Insertion step for `sortByID`. -/
def insertSorted (settings : groupSettings) (a : Description) :
    List Description → List Description
  | [] => [a]
  | b :: bs =>
    if sortByIDLess settings b a then b :: insertSorted settings a bs
    else a :: b :: bs

/-- Modelled from the spec: `sort.Sort(sortByID{list, settings})` —
deterministic sort of a list of instances by the `sortByIDLess` key
(embedded as an insertion sort). -/
def sortByID (settings : groupSettings) : List Description → List Description
  | [] => []
  | a :: rest => insertSorted settings a (sortByID settings rest)

/-- `rollingupdate`: a description and the two settings in force during the
transition.  The `scaled` collaborator and the `stop` channel are not data
here: their behaviour is the environment trace consumed by
`waitUntilQuiesced` and `Run`, and `Stop` (which closes the channel)
manifests as the delivery of a `PollEvent.stop` selection. -/
structure rollingupdate where
  desc : String
  updatingFrom : groupSettings
  updatingTo : groupSettings

/-- `rollingupdate.Explain`. -/
def Explain (r : rollingupdate) : String := r.desc

/-- Modelled from the spec: the destroy reason code emitted by this
subsystem (`instance.RollingUpdate`), "rolling-update". -/
def RollingUpdate : String := "rolling-update"

/-- The environment consumed by one `Run` invocation: the result of the
initial snapshot fetch, then, for each driver-loop iteration, the poll
events consumed by that iteration's quiescence wait together with the
result of the iteration's snapshot re-fetch. -/
structure RunEnv where
  initialSnapshot : Except String (List Description)
  iterations : List (List PollEvent × Except String (List Description))

/-- How a `Run` invocation ended on the given finite environment trace:
returned nil, returned an error, or was still running when the trace ran
out. -/
inductive RunOutcome where
  | ok
  | error (msg : String)
  | outOfTrace
deriving DecidableEq

/-- Observable result of `Run`: its outcome and the sequence of
`scaled.Destroy` calls it issued (instance and reason code), in order. -/
structure RunResult where
  outcome : RunOutcome
  destroys : List (Description × String)
deriving DecidableEq

/-- The driver loop of `Run`: wait for quiescence with threshold
`minInt expectedNewInstances allocationSize`; re-fetch and reclassify; stop
with success when the undesired set is empty; otherwise sort the undesired
set with the "from" settings, destroy its first element with the
rolling-update reason, increment `expectedNewInstances`, and repeat. -/
def runLoop (r : rollingupdate) : Nat →
    List (List PollEvent × Except String (List Description)) →
    List (Description × String) → RunResult
  | _, [], destroys => ⟨RunOutcome.outOfTrace, destroys⟩
  | expectedNewInstances, (trace, snap) :: rest, destroys =>
    match waitUntilQuiesced r.updatingTo
        (minInt expectedNewInstances r.updatingTo.config.AllocationSize) trace with
    | none => ⟨RunOutcome.outOfTrace, destroys⟩
    | some (some msg) => ⟨RunOutcome.error msg, destroys⟩
    | some none =>
      match snap with
      | Except.error msg => ⟨RunOutcome.error msg, destroys⟩
      | Except.ok instances =>
        match (desiredAndUndesiredInstances instances r.updatingTo).2 with
        | [] => ⟨RunOutcome.ok, destroys⟩
        | u :: us =>
          runLoop r (expectedNewInstances + 1) rest
            (destroys ++ [((sortByID r.updatingFrom (u :: us)).headD u, RollingUpdate)])

/-- `rollingupdate.Run`: fetch the initial snapshot, classify against the
target, start the driver loop with `expectedNewInstances` equal to the size
of the desired partition and no destroys issued. -/
def Run (r : rollingupdate) (env : RunEnv) : RunResult :=
  match env.initialSnapshot with
  | Except.error msg => ⟨RunOutcome.error msg, []⟩
  | Except.ok instances =>
    runLoop r (desiredAndUndesiredInstances instances r.updatingTo).1.length
      env.iterations []

/-- Spec-side (§4.2): the healthy count of one poll — the number of Healthy
instances among those classified desired against the target settings. -/
def specHealthyCount (settings : groupSettings) (health : Description → Health)
    (instances : List Description) : Nat :=
  ((desiredAndUndesiredInstances instances settings).1).countP
    (fun i => health i == Health.Healthy)

/-- Spec-side (§4.2): no instance classified desired against the target is
observed Unhealthy in this poll. -/
def specNoUnhealthy (settings : groupSettings) (health : Description → Health)
    (instances : List Description) : Bool :=
  ((desiredAndUndesiredInstances instances settings).1).all
    (fun i => !(health i == Health.Unhealthy))

/-- Spec-side (§4.2): a poll at which the wait returns success — the ticker
fired, the snapshot fetch succeeded, no desired-for-target instance is
Unhealthy, and the healthy count reaches the threshold. -/
def specPollSucceeds (settings : groupSettings) (expected : Nat) : PollEvent → Prop
  | PollEvent.tick (Except.ok instances) health =>
    specNoUnhealthy settings health instances = true ∧
      expected ≤ specHealthyCount settings health instances
  | _ => False

/-- Spec-side (§4.2): a poll after which the wait keeps waiting — the ticker
fired, the snapshot fetch succeeded, no desired-for-target instance is
Unhealthy, and the healthy count is below the threshold (only Unknown and
Healthy-below-threshold observations). -/
def specPollContinues (settings : groupSettings) (expected : Nat) : PollEvent → Prop
  | PollEvent.tick (Except.ok instances) health =>
    specNoUnhealthy settings health instances = true ∧
      specHealthyCount settings health instances < expected
  | _ => False

/-! Concrete sample data used by the witnesses. -/

/-- Sample content hash of the "from" configuration. -/
def hashOld : String := "sha-old"

/-- Sample content hash of the "to" configuration. -/
def hashNew : String := "sha-new"

/-- A self instance (logical ID mgr-1) still tagged with the old hash. -/
def selfInst : Description := ⟨"i-self", some "mgr-1", [(ConfigSHATag, hashOld)]⟩

/-- An instance tagged with the new hash. -/
def newInst : Description := ⟨"i-new", none, [(ConfigSHATag, hashNew)]⟩

/-- An instance tagged with the old hash. -/
def oldInst : Description := ⟨"i-old", none, [(ConfigSHATag, hashOld)]⟩

/-- An instance with no config-hash tag. -/
def bareInst : Description := ⟨"i-bare", none, []⟩

/-- Sample target ("to") settings: new hash, allocation size 2, self mgr-1,
policy Never. -/
def toSettings : groupSettings :=
  ⟨some "mgr-1", ⟨some SelfUpdatePolicy.Never⟩, ⟨hashNew, 2⟩⟩

/-- Sample "from" settings: old hash, allocation size 2, self mgr-1, policy
Never. -/
def fromSettings : groupSettings :=
  ⟨some "mgr-1", ⟨some SelfUpdatePolicy.Never⟩, ⟨hashOld, 2⟩⟩

/-- Sample rolling update from `fromSettings` to `toSettings`. -/
def sampleUpdate : rollingupdate := ⟨"sample", fromSettings, toSettings⟩

/-- Health observation marking every instance Healthy. -/
def healthAllHealthy : Description → Health := fun _ => Health.Healthy

/-- Health observation marking exactly the self instance Unhealthy. -/
def healthSelfUnhealthy : Description → Health :=
  fun i => if i.ID = selfInst.ID then Health.Unhealthy else Health.Healthy

/-! Theorems. -/

theorem desired_eq_filter (instances : List Description) (settings : groupSettings) :
    (desiredAndUndesiredInstances instances settings).1 =
      instances.filter (desiredCondition settings) := by
  simp [desiredAndUndesiredInstances, List.partition_eq_filter_filter]

theorem undesired_eq_filter (instances : List Description) (settings : groupSettings) :
    (desiredAndUndesiredInstances instances settings).2 =
      instances.filter (fun i => !(desiredCondition settings i)) := by
  simp only [desiredAndUndesiredInstances, List.partition_eq_filter_filter]
  rfl

theorem doNotDestroySelf_iff (inst : Description) (settings : groupSettings) :
    doNotDestroySelf inst settings = true ↔
      isSelf inst settings = true ∧
        settings.options.PolicyLeaderSelfUpdate = some SelfUpdatePolicy.Never := by
  cases h : isSelf inst settings with
  | false => simp [doNotDestroySelf, h]
  | true =>
    cases hp : settings.options.PolicyLeaderSelfUpdate with
    | none => simp [doNotDestroySelf, h, hp]
    | some p => cases p <;> simp [doNotDestroySelf, h, hp]

theorem desiredCondition_iff (inst : Description) (settings : groupSettings) :
    desiredCondition settings inst = true ↔
      inst.Tags.lookup ConfigSHATag = some settings.config.InstanceHash ∨
        (isSelf inst settings = true ∧
          settings.options.PolicyLeaderSelfUpdate = some SelfUpdatePolicy.Never) := by
  cases h : inst.Tags.lookup ConfigSHATag with
  | none => simp [desiredCondition, h, doNotDestroySelf_iff]
  | some v => simp [desiredCondition, h, doNotDestroySelf_iff]

theorem mem_desired_iff (inst : Description) (instances : List Description)
    (settings : groupSettings) :
    inst ∈ (desiredAndUndesiredInstances instances settings).1 ↔
      inst ∈ instances ∧ desiredCondition settings inst = true := by
  rw [desired_eq_filter, List.mem_filter]

theorem mem_undesired_iff (inst : Description) (instances : List Description)
    (settings : groupSettings) :
    inst ∈ (desiredAndUndesiredInstances instances settings).2 ↔
      inst ∈ instances ∧ desiredCondition settings inst = false := by
  rw [undesired_eq_filter, List.mem_filter]
  simp

/-- C1: for every list of instances and every settings value whose self
logical ID matches the instance (`isSelf`, i.e. by exact logical-ID
equality or by the logical-ID tag) and whose leader-self-update policy is
`Never`, `desiredAndUndesiredInstances` places that instance in the desired
partition; the config-hash tag plays no role in this case, and health is
not an input of the classifier at all. -/
theorem self_never_in_desired (instances : List Description)
    (settings : groupSettings) (inst : Description)
    (hmem : inst ∈ instances) (hself : isSelf inst settings = true)
    (hpol : settings.options.PolicyLeaderSelfUpdate = some SelfUpdatePolicy.Never) :
    inst ∈ (desiredAndUndesiredInstances instances settings).1 := by
  rw [mem_desired_iff]
  exact ⟨hmem, (desiredCondition_iff inst settings).mpr (Or.inr ⟨hself, hpol⟩)⟩

/-- Witness for C1: the self instance carries the old config hash (which
differs from the target hash of `toSettings`), yet is classified desired. -/
theorem self_never_in_desired_witness :
    selfInst ∈ (desiredAndUndesiredInstances [selfInst, oldInst] toSettings).1 :=
  self_never_in_desired [selfInst, oldInst] toSettings selfInst (by decide)
    (by decide) (by decide)

/-- C6: `desiredAndUndesiredInstances` partitions its input: desired and
undesired concatenated are a permutation (multiset equality) of the input,
each preserves the relative input order (is a sublist of the input), and no
instance occurs in both.  The embedding is a pure function, reflecting that
the Go call has no side effects and does not mutate its inputs. -/
theorem classifier_partition (instances : List Description) (settings : groupSettings) :
    ((desiredAndUndesiredInstances instances settings).1 ++
        (desiredAndUndesiredInstances instances settings).2).Perm instances ∧
      (desiredAndUndesiredInstances instances settings).1.Sublist instances ∧
      (desiredAndUndesiredInstances instances settings).2.Sublist instances ∧
      ∀ inst, inst ∈ (desiredAndUndesiredInstances instances settings).1 →
        inst ∉ (desiredAndUndesiredInstances instances settings).2 := by
  refine ⟨?_, ?_, ?_, ?_⟩
  · rw [desired_eq_filter, undesired_eq_filter]
    exact List.filter_append_perm _ instances
  · rw [desired_eq_filter]
    exact List.filter_sublist instances
  · rw [undesired_eq_filter]
    exact List.filter_sublist instances
  · intro inst hd hu
    rw [mem_desired_iff] at hd
    rw [mem_undesired_iff] at hu
    rw [hd.2] at hu
    exact absurd hu.2 (by simp)

/-- C7: membership in the desired partition holds exactly when the
config-hash tag is present and equal to the target settings' instance hash,
or the self-protection override applies (`isSelf` holds and the policy is
`Never`); in particular an instance whose config-hash tag is absent is
undesired unless self-protected. -/
theorem desired_membership_iff (instances : List Description)
    (settings : groupSettings) (inst : Description) (hmem : inst ∈ instances) :
    inst ∈ (desiredAndUndesiredInstances instances settings).1 ↔
      (inst.Tags.lookup ConfigSHATag = some settings.config.InstanceHash ∨
        (isSelf inst settings = true ∧
          settings.options.PolicyLeaderSelfUpdate = some SelfUpdatePolicy.Never)) := by
  rw [mem_desired_iff, ← desiredCondition_iff]
  simp [hmem]

/-- Witness for C7: an instance with no config-hash tag and not self — both
sides of the equivalence are false at this input. -/
theorem desired_membership_iff_witness :
    bareInst ∈ (desiredAndUndesiredInstances [bareInst] toSettings).1 ↔
      (bareInst.Tags.lookup ConfigSHATag = some toSettings.config.InstanceHash ∨
        (isSelf bareInst toSettings = true ∧
          toSettings.options.PolicyLeaderSelfUpdate = some SelfUpdatePolicy.Never)) :=
  desired_membership_iff [bareInst] toSettings bareInst (by decide)

theorem countHealthyFrom_no_unhealthy (health : Description → Health) :
    ∀ (l : List Description) (n : Nat),
      (∀ i ∈ l, health i ≠ Health.Unhealthy) →
      countHealthyFrom health l n =
        Except.ok (n + l.countP (fun i => health i == Health.Healthy)) := by
  intro l
  induction l with
  | nil => intro n _; simp [countHealthyFrom]
  | cons a rest ih =>
    intro n h
    have ha := h a (List.mem_cons_self a rest)
    have hrest : ∀ i ∈ rest, health i ≠ Health.Unhealthy :=
      fun i hi => h i (List.mem_cons_of_mem a hi)
    cases hh : health a with
    | Healthy =>
      simp only [countHealthyFrom, hh]
      rw [ih (n + 1) hrest]
      simp only [List.countP_cons, hh, Except.ok.injEq]
      simp
      omega
    | Unhealthy => exact absurd hh ha
    | Unknown =>
      simp only [countHealthyFrom, hh]
      rw [ih n hrest]
      simp only [List.countP_cons, hh, Except.ok.injEq]
      simp

theorem countHealthyFrom_first_unhealthy (health : Description → Health) :
    ∀ (l : List Description) (n : Nat),
      (∃ i ∈ l, health i = Health.Unhealthy) →
      ∃ w ∈ l, health w = Health.Unhealthy ∧
        countHealthyFrom health l n = Except.error (unhealthyErr w) := by
  intro l
  induction l with
  | nil => intro n h; simp at h
  | cons a rest ih =>
    intro n h
    cases hh : health a with
    | Unhealthy =>
      exact ⟨a, List.mem_cons_self a rest, hh, by simp [countHealthyFrom, hh]⟩
    | Healthy =>
      obtain ⟨i, hi, hiu⟩ := h
      have hirest : i ∈ rest := by
        cases List.mem_cons.mp hi with
        | inl he => rw [he, hh] at hiu; exact absurd hiu (by simp)
        | inr hr => exact hr
      obtain ⟨w, hw, hwu, herr⟩ := ih (n + 1) ⟨i, hirest, hiu⟩
      exact ⟨w, List.mem_cons_of_mem a hw, hwu, by simp [countHealthyFrom, hh, herr]⟩
    | Unknown =>
      obtain ⟨i, hi, hiu⟩ := h
      have hirest : i ∈ rest := by
        cases List.mem_cons.mp hi with
        | inl he => rw [he, hh] at hiu; exact absurd hiu (by simp)
        | inr hr => exact hr
      obtain ⟨w, hw, hwu, herr⟩ := ih n ⟨i, hirest, hiu⟩
      exact ⟨w, List.mem_cons_of_mem a hw, hwu, by simp [countHealthyFrom, hh, herr]⟩

theorem specNoUnhealthy_iff (settings : groupSettings) (health : Description → Health)
    (instances : List Description) :
    specNoUnhealthy settings health instances = true ↔
      ∀ i ∈ (desiredAndUndesiredInstances instances settings).1,
        health i ≠ Health.Unhealthy := by
  simp [specNoUnhealthy]

theorem pollOnce_success_iff (settings : groupSettings) (expected : Nat)
    (ev : PollEvent) :
    pollOnce settings expected ev = some none ↔
      specPollSucceeds settings expected ev := by
  cases ev with
  | stop => simp [pollOnce, specPollSucceeds]
  | tick snap health =>
    cases snap with
    | error e => simp [pollOnce, specPollSucceeds]
    | ok instances =>
      by_cases hU : ∀ i ∈ (desiredAndUndesiredInstances instances settings).1,
          health i ≠ Health.Unhealthy
      · simp only [pollOnce,
          countHealthyFrom_no_unhealthy health _ 0 hU, Nat.zero_add,
          specPollSucceeds, specHealthyCount]
        constructor
        · intro hif
          refine ⟨(specNoUnhealthy_iff settings health instances).mpr hU, ?_⟩
          by_contra hlt
          simp [hlt] at hif
        · rintro ⟨-, hle⟩
          simp [hle]
      · have hex : ∃ i ∈ (desiredAndUndesiredInstances instances settings).1,
            health i = Health.Unhealthy := by
          push_neg at hU
          exact hU
        obtain ⟨w, hw, hwu, herr⟩ :=
          countHealthyFrom_first_unhealthy health _ 0 hex
        have hnu : specNoUnhealthy settings health instances = false := by
          rw [Bool.eq_false_iff]
          intro habs
          exact absurd hwu ((specNoUnhealthy_iff settings health instances).mp habs w hw)
        simp [pollOnce, herr, specPollSucceeds, hnu]

theorem pollOnce_continues_iff (settings : groupSettings) (expected : Nat)
    (ev : PollEvent) :
    pollOnce settings expected ev = none ↔
      specPollContinues settings expected ev := by
  cases ev with
  | stop => simp [pollOnce, specPollContinues]
  | tick snap health =>
    cases snap with
    | error e => simp [pollOnce, specPollContinues]
    | ok instances =>
      by_cases hU : ∀ i ∈ (desiredAndUndesiredInstances instances settings).1,
          health i ≠ Health.Unhealthy
      · simp only [pollOnce,
          countHealthyFrom_no_unhealthy health _ 0 hU, Nat.zero_add,
          specPollContinues, specHealthyCount]
        constructor
        · intro hif
          refine ⟨(specNoUnhealthy_iff settings health instances).mpr hU, ?_⟩
          by_contra hge
          simp [Nat.le_of_not_lt hge] at hif
        · rintro ⟨-, hlt⟩
          simp [Nat.not_le_of_lt hlt]
      · have hex : ∃ i ∈ (desiredAndUndesiredInstances instances settings).1,
            health i = Health.Unhealthy := by
          push_neg at hU
          exact hU
        obtain ⟨w, hw, hwu, herr⟩ :=
          countHealthyFrom_first_unhealthy health _ 0 hex
        have hnu : specNoUnhealthy settings health instances = false := by
          rw [Bool.eq_false_iff]
          intro habs
          exact absurd hwu ((specNoUnhealthy_iff settings health instances).mp habs w hw)
        simp [pollOnce, herr, specPollContinues, hnu]

/-- C2: if, in a single poll, an instance classified desired against the
target settings is observed Unhealthy, `waitUntilQuiesced` returns an error
naming an Unhealthy desired instance (the first one the health loop meets),
for every threshold `expected` — in particular even when the count of
Healthy matching instances in the same poll already reaches the threshold,
since the health loop with its error return completes before the threshold
comparison; and when the Unhealthy instance is unique, the error names
exactly it. -/
theorem unhealthy_overrides_threshold (settings : groupSettings) (expected : Nat)
    (instances : List Description) (health : Description → Health)
    (events : List PollEvent) (inst : Description)
    (hmem : inst ∈ (desiredAndUndesiredInstances instances settings).1)
    (hun : health inst = Health.Unhealthy) :
    ∃ w ∈ (desiredAndUndesiredInstances instances settings).1,
      health w = Health.Unhealthy ∧
      waitUntilQuiesced settings expected
          (PollEvent.tick (Except.ok instances) health :: events) =
        some (some (unhealthyErr w)) ∧
      ((∀ j ∈ (desiredAndUndesiredInstances instances settings).1,
          health j = Health.Unhealthy → j = inst) → w = inst) := by
  obtain ⟨w, hw, hwu, herr⟩ :=
    countHealthyFrom_first_unhealthy health
      (desiredAndUndesiredInstances instances settings).1 0 ⟨inst, hmem, hun⟩
  refine ⟨w, hw, hwu, ?_, fun huniq => huniq w hw hwu⟩
  simp [waitUntilQuiesced, pollOnce, herr]

/-- Witness for C2: threshold 0 (trivially already met by the Healthy new
instance), yet the Unhealthy self instance aborts the wait with the error
naming it. -/
theorem unhealthy_overrides_threshold_witness :
    ∃ w ∈ (desiredAndUndesiredInstances [selfInst, newInst] toSettings).1,
      healthSelfUnhealthy w = Health.Unhealthy ∧
      waitUntilQuiesced toSettings 0
          (PollEvent.tick (Except.ok [selfInst, newInst]) healthSelfUnhealthy :: []) =
        some (some (unhealthyErr w)) ∧
      ((∀ j ∈ (desiredAndUndesiredInstances [selfInst, newInst] toSettings).1,
          healthSelfUnhealthy j = Health.Unhealthy → j = selfInst) → w = selfInst) :=
  unhealthy_overrides_threshold toSettings 0 [selfInst, newInst] healthSelfUnhealthy
    [] selfInst (by decide) (by decide)

/-- C3: `waitUntilQuiesced` returns success exactly when some poll of the
trace observes no Unhealthy desired-for-target instance and a count of
Healthy desired-for-target instances reaching the threshold, while every
earlier poll observed no Unhealthy and a Healthy count below the threshold;
moreover, on a trace consisting only of such below-threshold polls (Unknown
instances counting for nothing), the wait is still blocked — it neither
succeeds nor fails. -/
theorem quiesce_success_characterization (settings : groupSettings) (expected : Nat) :
    (∀ events : List PollEvent,
      (waitUntilQuiesced settings expected events = some none ↔
        ∃ pre ev post, events = pre ++ ev :: post ∧
          (∀ e ∈ pre, specPollContinues settings expected e) ∧
          specPollSucceeds settings expected ev)) ∧
    (∀ events : List PollEvent,
      (∀ e ∈ events, specPollContinues settings expected e) →
      waitUntilQuiesced settings expected events = none) := by
  constructor
  · intro events
    induction events with
    | nil =>
      constructor
      · intro h
        simp [waitUntilQuiesced] at h
      · rintro ⟨pre, ev, post, habs, -, -⟩
        exact absurd habs.symm (by simp)
    | cons ev0 rest ih =>
      cases hp : pollOnce settings expected ev0 with
      | none =>
        simp only [waitUntilQuiesced, hp]
        rw [ih]
        constructor
        · rintro ⟨pre, ev, post, heq, hcont, hsucc⟩
          refine ⟨ev0 :: pre, ev, post, by rw [heq]; rfl, ?_, hsucc⟩
          intro e he
          cases List.mem_cons.mp he with
          | inl h0 =>
            rw [h0]
            exact (pollOnce_continues_iff settings expected ev0).mp hp
          | inr hpre => exact hcont e hpre
        · rintro ⟨pre, ev, post, heq, hcont, hsucc⟩
          cases pre with
          | nil =>
            simp only [List.nil_append, List.cons.injEq] at heq
            rw [← heq.1] at hsucc
            have hps := (pollOnce_success_iff settings expected ev0).mpr hsucc
            rw [hp] at hps
            exact absurd hps (by simp)
          | cons p ps =>
            simp only [List.cons_append, List.cons.injEq] at heq
            exact ⟨ps, ev, post, heq.2,
              fun e he => hcont e (List.mem_cons_of_mem p he), hsucc⟩
      | some r =>
        cases r with
        | none =>
          simp only [waitUntilQuiesced, hp]
          constructor
          · intro _
            exact ⟨[], ev0, rest, rfl, by simp,
              (pollOnce_success_iff settings expected ev0).mp hp⟩
          · intro _
            trivial
        | some msg =>
          simp only [waitUntilQuiesced, hp]
          constructor
          · intro habs
            exact absurd habs (by simp)
          · rintro ⟨pre, ev, post, heq, hcont, hsucc⟩
            cases pre with
            | nil =>
              simp only [List.nil_append, List.cons.injEq] at heq
              rw [← heq.1] at hsucc
              have hps := (pollOnce_success_iff settings expected ev0).mpr hsucc
              rw [hp] at hps
              exact absurd hps (by simp)
            | cons p ps =>
              simp only [List.cons_append, List.cons.injEq] at heq
              have hc := hcont p (List.mem_cons_self p ps)
              rw [← heq.1] at hc
              have hpc := (pollOnce_continues_iff settings expected ev0).mpr hc
              rw [hp] at hpc
              exact absurd hpc (by simp)
  · intro events h
    induction events with
    | nil => rfl
    | cons ev0 rest ih =>
      have h0 : pollOnce settings expected ev0 = none :=
        (pollOnce_continues_iff settings expected ev0).mpr
          (h ev0 (List.mem_cons_self ev0 rest))
      simp only [waitUntilQuiesced, h0]
      exact ih (fun e he => h e (List.mem_cons_of_mem ev0 he))

/-- Witness for C3: both parts instantiated — the success equivalence on a
one-poll trace where the Healthy new instance meets threshold 1, and the
still-blocked conclusion on a one-poll trace where only an instance of the
old configuration (desired count zero, below threshold) is observed. -/
theorem quiesce_success_characterization_witness :
    (waitUntilQuiesced toSettings 1
        [PollEvent.tick (Except.ok [newInst]) healthAllHealthy] = some none ↔
      ∃ pre ev post,
        [PollEvent.tick (Except.ok [newInst]) healthAllHealthy] = pre ++ ev :: post ∧
        (∀ e ∈ pre, specPollContinues toSettings 1 e) ∧
        specPollSucceeds toSettings 1 ev) ∧
    waitUntilQuiesced toSettings 1
        [PollEvent.tick (Except.ok [oldInst]) healthAllHealthy] = none :=
  ⟨(quiesce_success_characterization toSettings 1).1 _,
   (quiesce_success_characterization toSettings 1).2 _ (by
    intro e he
    rw [List.mem_singleton] at he
    rw [he]
    exact ⟨by decide, by decide⟩)⟩

theorem insertSorted_ne_nil (settings : groupSettings) (a : Description) :
    ∀ l, insertSorted settings a l ≠ [] := by
  intro l
  cases l with
  | nil => simp [insertSorted]
  | cons b bs =>
    simp only [insertSorted]
    split <;> simp

theorem minInt_eq_min (a b : Nat) : minInt a b = min a b := by
  rw [minInt, Nat.min_def]
  split <;> split <;> omega

/-- C4: a driver-loop iteration whose quiescence wait returned success and
whose re-fetched snapshot classifies (against the target) to a non-empty
undesired set issues exactly one destroy — of the head of the undesired set
sorted with the "from" settings — tagged with the rolling-update reason
code, and then continues on the remaining iterations, so a further destroy
can only follow the next iteration's quiescence wait. -/
theorem run_destroys_sorted_head (r : rollingupdate) (expected : Nat)
    (trace : List PollEvent) (instances : List Description)
    (rest : List (List PollEvent × Except String (List Description)))
    (destroys : List (Description × String))
    (u : Description) (us : List Description)
    (hwait : waitUntilQuiesced r.updatingTo
        (minInt expected r.updatingTo.config.AllocationSize) trace = some none)
    (hund : (desiredAndUndesiredInstances instances r.updatingTo).2 = u :: us) :
    ∃ v vs, sortByID r.updatingFrom (u :: us) = v :: vs ∧
      runLoop r expected ((trace, Except.ok instances) :: rest) destroys =
        runLoop r (expected + 1) rest (destroys ++ [(v, RollingUpdate)]) := by
  obtain ⟨v, vs, hv⟩ : ∃ v vs, sortByID r.updatingFrom (u :: us) = v :: vs := by
    cases hs : sortByID r.updatingFrom (u :: us) with
    | nil =>
      rw [sortByID] at hs
      exact absurd hs (insertSorted_ne_nil r.updatingFrom u _)
    | cons v vs => exact ⟨v, vs, rfl⟩
  refine ⟨v, vs, hv, ?_⟩
  simp only [runLoop, hwait, hund, hv, List.headD]

/-- Witness for C4: after a successful wait, re-fetching a snapshot with one
old-configuration instance makes the loop destroy exactly that instance
with the rolling-update reason. -/
theorem run_destroys_sorted_head_witness :
    ∃ v vs, sortByID sampleUpdate.updatingFrom [oldInst] = v :: vs ∧
      runLoop sampleUpdate 1
          (([PollEvent.tick (Except.ok [newInst]) healthAllHealthy],
            Except.ok [newInst, oldInst]) :: []) [] =
        runLoop sampleUpdate (1 + 1) [] ([] ++ [(v, RollingUpdate)]) :=
  run_destroys_sorted_head sampleUpdate 1
    [PollEvent.tick (Except.ok [newInst]) healthAllHealthy]
    [newInst, oldInst] [] [] oldInst [] (by decide) (by decide)

/-- C5: `Run` initializes `expectedNewInstances` to the size of the desired
partition of the initial snapshot classified against the target; every
driver-loop step consults its quiescence wait at threshold
`min(expectedNewInstances, target allocation size)` — propagating that
wait's error, stalling when that wait stalls, proceeding when it succeeds —
and `expectedNewInstances` grows by exactly one across each destroy. -/
theorem run_threshold_and_increment (r : rollingupdate) :
    (∀ env instances, env.initialSnapshot = Except.ok instances →
      Run r env = runLoop r
        (desiredAndUndesiredInstances instances r.updatingTo).1.length
        env.iterations []) ∧
    (∀ expected trace snap rest destroys msg,
      waitUntilQuiesced r.updatingTo
          (min expected r.updatingTo.config.AllocationSize) trace =
        some (some msg) →
      runLoop r expected ((trace, snap) :: rest) destroys =
        ⟨RunOutcome.error msg, destroys⟩) ∧
    (∀ expected trace snap rest destroys,
      waitUntilQuiesced r.updatingTo
          (min expected r.updatingTo.config.AllocationSize) trace = none →
      runLoop r expected ((trace, snap) :: rest) destroys =
        ⟨RunOutcome.outOfTrace, destroys⟩) ∧
    (∀ expected trace instances rest destroys u us,
      waitUntilQuiesced r.updatingTo
          (min expected r.updatingTo.config.AllocationSize) trace = some none →
      (desiredAndUndesiredInstances instances r.updatingTo).2 = u :: us →
      ∃ v, runLoop r expected ((trace, Except.ok instances) :: rest) destroys =
        runLoop r (expected + 1) rest (destroys ++ [(v, RollingUpdate)])) := by
  refine ⟨?_, ?_, ?_, ?_⟩
  · intro env instances h0
    simp only [Run, h0]
  · intro expected trace snap rest destroys msg hwait
    rw [← minInt_eq_min] at hwait
    simp only [runLoop, hwait]
  · intro expected trace snap rest destroys hwait
    rw [← minInt_eq_min] at hwait
    simp only [runLoop, hwait]
  · intro expected trace instances rest destroys u us hwait hund
    rw [← minInt_eq_min] at hwait
    refine ⟨(sortByID r.updatingFrom (u :: us)).headD u, ?_⟩
    simp only [runLoop, hwait, hund]

/-- Witness for C5: all four parts instantiated — the initialization
equation on a concrete environment; error propagation when the first poll
selects the stop case; stalling on an empty wait trace; and the
increment-by-one step on a snapshot with one undesired instance. -/
theorem run_threshold_and_increment_witness :
    (Run sampleUpdate ⟨Except.ok [oldInst], []⟩ = runLoop sampleUpdate
      (desiredAndUndesiredInstances [oldInst] sampleUpdate.updatingTo).1.length
      [] []) ∧
    (runLoop sampleUpdate 1 (([PollEvent.stop], Except.ok []) :: []) [] =
      ⟨RunOutcome.error haltedByUser, []⟩) ∧
    (runLoop sampleUpdate 1 (([], Except.ok []) :: []) [] =
      ⟨RunOutcome.outOfTrace, []⟩) ∧
    (∃ v, runLoop sampleUpdate 1
        (([PollEvent.tick (Except.ok [newInst]) healthAllHealthy],
          Except.ok [newInst, oldInst]) :: []) [] =
      runLoop sampleUpdate (1 + 1) [] ([] ++ [(v, RollingUpdate)])) :=
  ⟨(run_threshold_and_increment sampleUpdate).1 ⟨Except.ok [oldInst], []⟩ [oldInst] rfl,
   (run_threshold_and_increment sampleUpdate).2.1 1 [PollEvent.stop]
     (Except.ok []) [] [] haltedByUser (by decide),
   (run_threshold_and_increment sampleUpdate).2.2.1 1 [] (Except.ok []) [] [] rfl,
   (run_threshold_and_increment sampleUpdate).2.2.2 1
     [PollEvent.tick (Except.ok [newInst]) healthAllHealthy]
     [newInst, oldInst] [] [] oldInst [] (by decide) (by decide)⟩

/-- Counterexample to C8 as stated: an environment whose initial snapshot
classifies to an empty undesired set, on which `Run` nevertheless does not
return success — the driver still performs a quiescence pass first, and
here that pass observes the (desired) instance Unhealthy, so `Run` returns
the unhealthy-instance error. -/
theorem initial_empty_yet_run_fails :
    (desiredAndUndesiredInstances [newInst] toSettings).2 = [] ∧
    (Run sampleUpdate ⟨Except.ok [newInst],
        [([PollEvent.tick (Except.ok [newInst]) (fun _ => Health.Unhealthy)],
          Except.ok [newInst])]⟩).outcome =
      RunOutcome.error (unhealthyErr newInst) ∧
    RunOutcome.error (unhealthyErr newInst) ≠ RunOutcome.ok := by
  refine ⟨by decide, by decide, by simp⟩

/-- C8 amended: if the initial snapshot fetch succeeds, the first quiescence
wait returns success, and the re-fetched snapshot's undesired set is empty,
then `Run` returns success having issued no destroy (the code checks the
re-fetched snapshot, not the initial one, and only after a quiescence
pass); and an undesired set found empty after a successful quiescence pass
is the only way the driver loop returns success — at that iteration the
wait threshold derives from the start expectation plus one per preceding
iteration. -/
theorem run_success_characterization (r : rollingupdate) :
    (∀ env inst0 trace instances rest,
      env.initialSnapshot = Except.ok inst0 →
      env.iterations = (trace, Except.ok instances) :: rest →
      waitUntilQuiesced r.updatingTo
          (minInt (desiredAndUndesiredInstances inst0 r.updatingTo).1.length
            r.updatingTo.config.AllocationSize) trace = some none →
      (desiredAndUndesiredInstances instances r.updatingTo).2 = [] →
      Run r env = ⟨RunOutcome.ok, []⟩) ∧
    (∀ iters expected destroys,
      (runLoop r expected iters destroys).outcome = RunOutcome.ok →
      ∃ pre trace instances rest,
        iters = pre ++ (trace, Except.ok instances) :: rest ∧
        waitUntilQuiesced r.updatingTo
            (minInt (expected + pre.length) r.updatingTo.config.AllocationSize)
            trace = some none ∧
        (desiredAndUndesiredInstances instances r.updatingTo).2 = []) := by
  constructor
  · intro env inst0 trace instances rest h0 hit hwait hund
    simp only [Run, h0, hit, runLoop, hwait, hund]
  · intro iters
    induction iters with
    | nil =>
      intro expected destroys h
      simp [runLoop] at h
    | cons it rest ih =>
      obtain ⟨trace, snap⟩ := it
      intro expected destroys h
      cases hw : waitUntilQuiesced r.updatingTo
          (minInt expected r.updatingTo.config.AllocationSize) trace with
      | none =>
        simp only [runLoop, hw] at h
        exact absurd h (by simp)
      | some o =>
        cases o with
        | some m =>
          simp only [runLoop, hw] at h
          exact absurd h (by simp)
        | none =>
          cases snap with
          | error m =>
            simp only [runLoop, hw] at h
            exact absurd h (by simp)
          | ok instances =>
            cases hund : (desiredAndUndesiredInstances instances r.updatingTo).2 with
            | nil =>
              refine ⟨[], trace, instances, rest, rfl, ?_, hund⟩
              rw [List.length_nil, Nat.add_zero]
              exact hw
            | cons u us =>
              simp only [runLoop, hw, hund] at h
              obtain ⟨pre, trace2, instances2, rest2, heq, hw2, hund2⟩ :=
                ih (expected + 1)
                  (destroys ++ [((sortByID r.updatingFrom (u :: us)).headD u,
                    RollingUpdate)]) h
              refine ⟨(trace, Except.ok instances) :: pre, trace2, instances2,
                rest2, by rw [List.cons_append, heq], ?_, hund2⟩
              have harith : expected + ((trace, Except.ok instances) :: pre).length
                  = expected + 1 + pre.length := by
                rw [List.length_cons]
                omega
              rw [harith]
              exact hw2

/-- Witness for C8 (amended): a stable environment — the snapshot stays the
single new-configuration Healthy instance — on which `Run` returns success
with no destroys, plus the only-way-to-success direction instantiated on
the same iteration list. -/
theorem run_success_characterization_witness :
    (Run sampleUpdate ⟨Except.ok [newInst],
        [([PollEvent.tick (Except.ok [newInst]) healthAllHealthy],
          Except.ok [newInst])]⟩ = ⟨RunOutcome.ok, []⟩) ∧
    (∃ pre trace instances rest,
      ([([PollEvent.tick (Except.ok [newInst]) healthAllHealthy],
          Except.ok [newInst])] :
        List (List PollEvent × Except String (List Description))) =
          pre ++ (trace, Except.ok instances) :: rest ∧
      waitUntilQuiesced sampleUpdate.updatingTo
          (minInt (1 + pre.length)
            sampleUpdate.updatingTo.config.AllocationSize) trace = some none ∧
      (desiredAndUndesiredInstances instances sampleUpdate.updatingTo).2 = []) :=
  ⟨(run_success_characterization sampleUpdate).1
      ⟨Except.ok [newInst],
        [([PollEvent.tick (Except.ok [newInst]) healthAllHealthy],
          Except.ok [newInst])]⟩
      [newInst] [PollEvent.tick (Except.ok [newInst]) healthAllHealthy]
      [newInst] [] rfl rfl (by decide) (by decide),
   (run_success_characterization sampleUpdate).2
      [([PollEvent.tick (Except.ok [newInst]) healthAllHealthy],
        Except.ok [newInst])] 1 [] (by decide)⟩

theorem waitUntilQuiesced_append_continues (settings : groupSettings)
    (expected : Nat) :
    ∀ (pre evs : List PollEvent),
      (∀ e ∈ pre, pollOnce settings expected e = none) →
      waitUntilQuiesced settings expected (pre ++ evs) =
        waitUntilQuiesced settings expected evs := by
  intro pre
  induction pre with
  | nil => intro evs _; rfl
  | cons p ps ih =>
    intro evs h
    have hp := h p (List.mem_cons_self p ps)
    simp only [List.cons_append, waitUntilQuiesced, hp]
    exact ih evs (fun e he => h e (List.mem_cons_of_mem p he))

/-- C9: when the scheduler selection following a run of polls that all kept
the wait blocked is the (closed) stop channel, `waitUntilQuiesced` stops
polling — whatever events would have followed are ignored — and returns the
halted-by-user error; a driver-loop iteration whose wait observes the
cancellation this way makes the loop return that same error with its
destroy list unchanged, so no destroy is issued after the cancellation was
observed. -/
theorem stop_halts_update :
    (∀ (settings : groupSettings) (expected : Nat) (pre rest2 : List PollEvent),
      (∀ e ∈ pre, pollOnce settings expected e = none) →
      waitUntilQuiesced settings expected (pre ++ PollEvent.stop :: rest2) =
        some (some haltedByUser)) ∧
    (∀ (r : rollingupdate) (expected : Nat) (pre rest2 : List PollEvent)
      (snap : Except String (List Description))
      (iters : List (List PollEvent × Except String (List Description)))
      (destroys : List (Description × String)),
      (∀ e ∈ pre, pollOnce r.updatingTo
          (minInt expected r.updatingTo.config.AllocationSize) e = none) →
      runLoop r expected ((pre ++ PollEvent.stop :: rest2, snap) :: iters)
          destroys =
        ⟨RunOutcome.error haltedByUser, destroys⟩) := by
  have hwait : ∀ (settings : groupSettings) (expected : Nat)
      (pre rest2 : List PollEvent),
      (∀ e ∈ pre, pollOnce settings expected e = none) →
      waitUntilQuiesced settings expected (pre ++ PollEvent.stop :: rest2) =
        some (some haltedByUser) := by
    intro settings expected pre rest2 h
    rw [waitUntilQuiesced_append_continues settings expected pre
      (PollEvent.stop :: rest2) h]
    simp [waitUntilQuiesced, pollOnce]
  refine ⟨hwait, ?_⟩
  intro r expected pre rest2 snap iters destroys h
  have hw := hwait r.updatingTo
    (minInt expected r.updatingTo.config.AllocationSize) pre rest2 h
  simp only [runLoop, hw]

/-- Witness for C9: one still-blocked poll (the old-configuration instance
does not count toward the threshold of 1), then the stop selection: the
wait returns the halted-by-user error, and a driver iteration with this
trace ends the loop with that error and an empty destroy list. -/
theorem stop_halts_update_witness :
    (waitUntilQuiesced toSettings 1
        ([PollEvent.tick (Except.ok [oldInst]) healthAllHealthy] ++
          PollEvent.stop :: []) = some (some haltedByUser)) ∧
    (runLoop sampleUpdate 1
        (([PollEvent.tick (Except.ok [oldInst]) healthAllHealthy] ++
          PollEvent.stop :: [], Except.ok [oldInst]) :: []) [] =
      ⟨RunOutcome.error haltedByUser, []⟩) :=
  ⟨stop_halts_update.1 toSettings 1
      [PollEvent.tick (Except.ok [oldInst]) healthAllHealthy] []
      (by intro e he; rw [List.mem_singleton] at he; rw [he]; decide),
   stop_halts_update.2 sampleUpdate 1
      [PollEvent.tick (Except.ok [oldInst]) healthAllHealthy] []
      (Except.ok [oldInst]) [] []
      (by intro e he; rw [List.mem_singleton] at he; rw [he]; decide)⟩

/-- C10: the instances whose health a poll evaluates and counts are exactly
the desired partition against the target settings; a self-protected
instance (self under policy `Never`) whose config-hash tag does not match
the target hash belongs to that partition, its Healthy observation
contributes exactly one to the healthy count compared against the
threshold, and its Unhealthy observation makes the poll return an error —
although the instance is not of the new configuration. -/
theorem self_protected_counts_in_health_gate (settings : groupSettings)
    (instances : List Description) (health : Description → Health)
    (expected : Nat) (inst : Description)
    (hmem : inst ∈ instances)
    (hself : isSelf inst settings = true)
    (hpol : settings.options.PolicyLeaderSelfUpdate = some SelfUpdatePolicy.Never)
    (_hhash : inst.Tags.lookup ConfigSHATag ≠ some settings.config.InstanceHash) :
    inst ∈ (desiredAndUndesiredInstances instances settings).1 ∧
    (health inst = Health.Healthy →
      specHealthyCount settings health instances =
        (((desiredAndUndesiredInstances instances settings).1.erase inst).countP
          (fun i => health i == Health.Healthy)) + 1) ∧
    (health inst = Health.Unhealthy →
      ∃ msg, pollOnce settings expected
          (PollEvent.tick (Except.ok instances) health) = some (some msg)) := by
  have hdes : inst ∈ (desiredAndUndesiredInstances instances settings).1 := by
    rw [mem_desired_iff]
    exact ⟨hmem, (desiredCondition_iff inst settings).mpr (Or.inr ⟨hself, hpol⟩)⟩
  refine ⟨hdes, ?_, ?_⟩
  · intro hh
    have hperm := List.perm_cons_erase hdes
    rw [specHealthyCount, hperm.countP_eq, List.countP_cons]
    simp [hh]
  · intro hh
    obtain ⟨w, hw, hwu, herr⟩ :=
      countHealthyFrom_first_unhealthy health
        (desiredAndUndesiredInstances instances settings).1 0 ⟨inst, hdes, hh⟩
    exact ⟨unhealthyErr w, by simp [pollOnce, herr]⟩

/-- Witness for C10: the self instance carries the old hash yet sits in the
desired partition; under the health observation that marks it Unhealthy,
the poll returns an error. -/
theorem self_protected_counts_in_health_gate_witness :
    selfInst ∈ (desiredAndUndesiredInstances [selfInst, newInst] toSettings).1 ∧
    (healthSelfUnhealthy selfInst = Health.Healthy →
      specHealthyCount toSettings healthSelfUnhealthy [selfInst, newInst] =
        (((desiredAndUndesiredInstances [selfInst, newInst] toSettings).1.erase
          selfInst).countP (fun i => healthSelfUnhealthy i == Health.Healthy)) + 1) ∧
    (healthSelfUnhealthy selfInst = Health.Unhealthy →
      ∃ msg, pollOnce toSettings 2
          (PollEvent.tick (Except.ok [selfInst, newInst]) healthSelfUnhealthy) =
        some (some msg)) :=
  self_protected_counts_in_health_gate toSettings [selfInst, newInst]
    healthSelfUnhealthy 2 selfInst (by decide) (by decide) (by decide) (by decide)

end Infrakit
